import Mathlib

/-!
Verification development for the mlpug training-orchestration core.

The Python sources are shallowly embedded:

* Python values that can populate a nested logs structure become the
  inductive type `PyVal` (None, int, str, dict, list, tuple).
* Python functions that can raise become `Except String`-valued Lean
  functions; the string carries the exception class and message.
* In-place mutation of a nested dict becomes functional update: the
  updated subtree is written back along the traversed path, which is
  observationally equivalent for tree-shaped data.

Embedded here, from `src/mlpug/utils/utils.py`:
`get_value_at`, `set_value_at`, `has_key`, `can_get_and_set_values`,
`is_chunkable`; from `src/mlpug/tensorflow/distributed_utils.py`:
`contains_per_replica_data`, `unpack_per_replica_and_map`,
`pack_per_replica`; from `src/mlpug/trainers/callbacks/basic.py`:
`LogProgress.on_batch_training_completed`, `LogProgress.on_epoch_completed`,
`BatchSizeLogger.on_batch_training_start`.
-/

namespace Mlpug

/-- A Python value as it can appear in the nested logs data structures:
`None`, an int, a string, a dict with string keys, a list, or a tuple.
(Floats are not modelled; where the source manipulates durations we use
ints, which does not affect the structural claims proved here.) -/
inductive PyVal where
  | none : PyVal
  | int (n : Int) : PyVal
  | str (s : String) : PyVal
  | dict (entries : List (String × PyVal)) : PyVal
  | list (xs : List PyVal) : PyVal
  | tuple (xs : List PyVal) : PyVal

/-- Lookup of a key in a dict's entry list (Python `d[k]` read, first hit). -/
def lookupEntry (key : String) : List (String × PyVal) → Option PyVal
  | [] => Option.none
  | e :: es => if e.1 = key then some e.2 else lookupEntry key es

/-- Store of a key in a dict's entry list (Python `d[k] = v`): replaces the
first entry with that key, otherwise appends. Python dicts have unique
keys, so on well-formed dicts this is exactly dict assignment. -/
def setEntry (key : String) (v : PyVal) : List (String × PyVal) → List (String × PyVal)
  | [] => [(key, v)]
  | e :: es => if e.1 = key then (key, v) :: es else e :: setEntry key v es

/-- Python `hasattr(o, "__iter__")`: true for dict, str, list, tuple;
false for None and int. -/
def hasIter : PyVal → Bool
  | PyVal.dict _ => true
  | PyVal.str _ => true
  | PyVal.list _ => true
  | PyVal.tuple _ => true
  | PyVal.none => false
  | PyVal.int _ => false

/-- Character-list prefix test, used to model Python substring containment. -/
def isPrefixChars : List Char → List Char → Bool
  | [], _ => true
  | _ :: _, [] => false
  | a :: as, b :: bs => a = b && isPrefixChars as bs

/-- Character-list infix test: models Python `needle in haystack` for
strings (the empty needle is contained in every string). -/
def isInfixChars (needle : List Char) : List Char → Bool
  | [] => isPrefixChars needle []
  | b :: bs => isPrefixChars needle (b :: bs) || isInfixChars needle bs

/-- Python `==` between a str operand and an arbitrary value: equal
strings compare equal, a str never equals a value of another type. -/
def strElemEq (key : String) : PyVal → Bool
  | PyVal.str s => key = s
  | _ => false

/-- Python `key in o` for a string key: dict keys membership, substring
containment for str, element membership (via `==`) for list and tuple.
For None and int the operator would raise, but `has_key` short-circuits
on `hasIter` first, so the value returned here for them is never
observed. -/
def inOp (o : PyVal) (key : String) : Bool :=
  match o with
  | PyVal.dict es => (lookupEntry key es).isSome
  | PyVal.str s => isInfixChars key.data s.data
  | PyVal.list xs => xs.any (strElemEq key)
  | PyVal.tuple xs => xs.any (strElemEq key)
  | PyVal.none => false
  | PyVal.int _ => false

/-- `has_key(o, key)` from src/mlpug/utils/utils.py:
`hasattr(o, "__iter__") and (key in o)`. -/
def has_key (o : PyVal) (key : String) : Bool :=
  hasIter o && inOp o key

/-- Python `o[key]` for a string key: dict lookup (KeyError when absent);
str, list and tuple reject string indices with TypeError; None and int are
not subscriptable. -/
def getItem (o : PyVal) (key : String) : Except String PyVal :=
  match o with
  | PyVal.dict es =>
    match lookupEntry key es with
    | some v => Except.ok v
    | Option.none => Except.error ("KeyError: " ++ key)
  | PyVal.str _ => Except.error "TypeError: string indices must be integers"
  | PyVal.list _ => Except.error "TypeError: list indices must be integers"
  | PyVal.tuple _ => Except.error "TypeError: tuple indices must be integers"
  | PyVal.none => Except.error "TypeError: NoneType is not subscriptable"
  | PyVal.int _ => Except.error "TypeError: int is not subscriptable"

/-- Python `o[key] = v` for a string key: dict assignment succeeds; list
assignment with a string index is a TypeError; the remaining values do not
support item assignment. -/
def setItem (o : PyVal) (key : String) (v : PyVal) : Except String PyVal :=
  match o with
  | PyVal.dict es => Except.ok (PyVal.dict (setEntry key v es))
  | PyVal.list _ => Except.error "TypeError: list indices must be integers"
  | _ => Except.error "TypeError: object does not support item assignment"

/-- `can_get_and_set_values(o)` from src/mlpug/utils/utils.py: the value is
not None and has callable `__getitem__` and `__setitem__`. Of the modelled
values only dict and list qualify (str and tuple have no `__setitem__`). -/
def can_get_and_set_values : PyVal → Bool
  | PyVal.dict _ => true
  | PyVal.list _ => true
  | _ => false

/-- Split a character list on the dot character, keeping empty segments:
models Python `key_path.split(".")` (note `"".split(".") == [""]`). -/
def splitDots : List Char → List (List Char)
  | [] => [[]]
  | c :: cs =>
    match splitDots cs with
    | [] => [[c]]
    | r :: rs => if c = '.' then [] :: r :: rs else (c :: r) :: rs

/-- Python `key_path.split(".")` producing strings. -/
def splitKeys (key_path : String) : List String :=
  (splitDots key_path.data).map (fun l => String.mk l)

/-- The loop of `get_value_at`: walk the key list, descending while
`has_key` holds; on the first failing segment the loop body sets the value
to None and breaks. Raises propagate (item access after a successful
`has_key` can still be a TypeError, e.g. on a str). -/
def getValueLoop : List String → PyVal → Except String PyVal
  | [], value => Except.ok value
  | key :: rest, value =>
    if has_key value key then
      match getItem value key with
      | Except.ok v => getValueLoop rest v
      | Except.error e => Except.error e
    else
      Except.ok PyVal.none

/-- `get_value_at(key_path, nested_data, default=None, ...)` from
src/mlpug/utils/utils.py. After the loop, a final value of None (stored or
produced by the break) is replaced by `default`. The `warn_on_failure`
flag only controls logging and is not modelled. -/
def get_value_at (key_path : String) (nested_data : PyVal)
    (default : PyVal := PyVal.none) : Except String PyVal :=
  match getValueLoop (splitKeys key_path) nested_data with
  | Except.error e => Except.error e
  | Except.ok value =>
    Except.ok (match value with
      | PyVal.none => default
      | v => v)

/-- The recursion of `set_value_at` over the already-split key list. The
source joins `keys[1:]` with dots and re-splits in the recursive call,
which is the identity on the segment list (segments contain no dot), so
recursing on the tail is faithful. Each call first checks
`can_get_and_set_values` and raises otherwise; a missing non-final segment
is created as an empty dict before descending; the in-place mutation of
the child dict becomes a functional write-back. -/
def setValueLoop : List String → PyVal → PyVal → Except String PyVal
  | [], nested_data, _ =>
    if can_get_and_set_values nested_data then
      Except.error "IndexError: list index out of range"
    else
      Except.error "Exception: invalid path, cannot get or set keys for provided nested data variable"
  | [root_key], nested_data, value =>
    if can_get_and_set_values nested_data then
      setItem nested_data root_key value
    else
      Except.error "Exception: invalid path, cannot get or set keys for provided nested data variable"
  | root_key :: key2 :: rest, nested_data, value =>
    if can_get_and_set_values nested_data then
      match (if has_key nested_data root_key then Except.ok nested_data
             else setItem nested_data root_key (PyVal.dict [])) with
      | Except.error e => Except.error e
      | Except.ok nested1 =>
        match getItem nested1 root_key with
        | Except.error e => Except.error e
        | Except.ok child =>
          match setValueLoop (key2 :: rest) child value with
          | Except.error e => Except.error e
          | Except.ok child1 => setItem nested1 root_key child1
    else
      Except.error "Exception: invalid path, cannot get or set keys for provided nested data variable"

/-- `set_value_at(key_path, nested_data, value, ...)` from
src/mlpug/utils/utils.py; returns the updated tree.
`warn_on_path_unavailable` only controls logging and is not modelled. -/
def set_value_at (key_path : String) (nested_data : PyVal) (value : PyVal) :
    Except String PyVal :=
  setValueLoop (splitKeys key_path) nested_data value

/-- The traversed values along a key path that make `set_value_at`
succeed: the current node must be a dict at every step; a present
non-final segment is followed, an absent one leads to freshly created
dicts (which always succeed). The empty key list never occurs
(`split` always returns a non-empty list) and is mapped to failure,
matching `setValueLoop`. -/
def setOkPath : List String → PyVal → Bool
  | [], _ => false
  | [_], PyVal.dict _ => true
  | k :: k2 :: rest, PyVal.dict es =>
    match lookupEntry k es with
    | some child => setOkPath (k2 :: rest) child
    | Option.none => true
  | _, _ => false

/-- Specification-side notion of path resolution: a key list resolves in
a tree when every segment is found as a dict key, yielding the stored
value. (Independent of the traversal code: used to state what a
"successfully resolving" or "failing" path is.) -/
def resolvePath : List String → PyVal → Option PyVal
  | [], v => some v
  | k :: rest, PyVal.dict es =>
    match lookupEntry k es with
    | some child => resolvePath rest child
    | Option.none => Option.none
  | _ :: _, _ => Option.none

mutual

/-- Trees on which dotted-path lookup is exception-free: every node is a
dict, an int or None. A str or list node can make `in` succeed while item
access by string key raises TypeError. -/
def isSafeTree : PyVal → Bool
  | PyVal.dict es => isSafeEntries es
  | PyVal.int _ => true
  | PyVal.none => true
  | PyVal.str _ => false
  | PyVal.list _ => false
  | PyVal.tuple _ => false

/-- All values of a dict entry list are safe trees. -/
def isSafeEntries : List (String × PyVal) → Bool
  | [] => true
  | e :: es => isSafeTree e.2 && isSafeEntries es

end

/-- A PerReplica distributed composite: one value per replica/device. -/
structure PerReplica (α : Type) where
  values : List α

/-- Python `zip(*u)` over a sequence of sequences: the j-th output tuple
collects the j-th element of every input sequence, truncating at the
shortest input; `zip()` of no sequences is empty. -/
def pyZipStar {α : Type} (u : List (List α)) : List (List α) :=
  (List.range (((u.map List.length).min?).getD 0)).map
    (fun j => u.filterMap (fun row => row[j]?))

/-- `pack_per_replica(unpacked_replica_data)` from
src/mlpug/tensorflow/distributed_utils.py:
`tuple(values.PerReplica(t) for t in zip(*unpacked_replica_data))` — zips
the per-device component sequences component-wise into one PerReplica
composite per component. -/
def pack_per_replica {α : Type} (unpacked_replica_data : List (List α)) :
    List (PerReplica α) :=
  (pyZipStar unpacked_replica_data).map PerReplica.mk

/-- Modelled from the spec: `tf.distribute.Strategy.experimental_local_results`
is TensorFlow library code and not part of the sources. Per the spec, the
packed form "must flatten to per-device components, via a
strategy-specific extraction, before mapping": applied to a tuple of
PerReplica composites it returns, for each replica, the tuple of that
replica's components — the component-wise inverse of the zip performed by
`pack_per_replica`. -/
def experimental_local_results {α : Type} (per_replica_data : List (PerReplica α)) :
    List (List α) :=
  pyZipStar (per_replica_data.map PerReplica.values)

/-- `unpack_per_replica_and_map(map_func, per_replica_data,
distribution_strategy, unpacked_replica_data)` from
src/mlpug/tensorflow/distributed_utils.py. The distribution strategy is
relevant only through `experimental_local_results`, so it is modelled as
an optional unit; raised ValueErrors become `Except.error`. The guard
order follows the source: both inputs absent, both present, then packed
form without a strategy. -/
def unpack_per_replica_and_map {α β : Type} (map_func : List α → β)
    (per_replica_data : Option (List (PerReplica α)))
    (distribution_strategy : Option Unit)
    (unpacked_replica_data : Option (List (List α))) :
    Except String (List β) :=
  match per_replica_data, unpacked_replica_data with
  | Option.none, Option.none =>
    Except.error "ValueError: Provide per_replica_data (None) or unpacked_replica_data (None)"
  | some _, some _ =>
    Except.error "ValueError: Either per_replica_data or unpacked_replica_data not both."
  | some prd, Option.none =>
    match distribution_strategy with
    | Option.none =>
      Except.error "ValueError: Please provide a distribution_strategy in order to unpack the provided per_replica_data"
    | some _ => Except.ok ((experimental_local_results prd).map map_func)
  | Option.none, some urd => Except.ok (urd.map map_func)

/-- A value as seen by `contains_per_replica_data`: a plain scalar, a
recognized `DistributedValues` composite, or a list/tuple of such
values. -/
inductive TFData where
  | scalar (n : Int) : TFData
  | distributed (values : List Int) : TFData
  | list (xs : List TFData) : TFData
  | tuple (xs : List TFData) : TFData

/-- `contains_per_replica_data(data)` from
src/mlpug/tensorflow/distributed_utils.py: for a list or tuple it returns
`len(data) > 0 and contains_per_replica_data(data[0])` — recursing into
the FIRST element only — otherwise `isinstance(data, DistributedValues)`. -/
def contains_per_replica_data : TFData → Bool
  | TFData.scalar _ => false
  | TFData.distributed _ => true
  | TFData.list [] => false
  | TFData.list (x :: _) => contains_per_replica_data x
  | TFData.tuple [] => false
  | TFData.tuple (x :: _) => contains_per_replica_data x

/-- A tensor abstracted to its shape; `torch.Tensor.size(dim)` reads one
shape dimension. -/
structure Tensor where
  shape : List Nat

/-- Modelled from the spec: `Tensor.size(dim)` is deep-learning-backend
library code; it returns the size of the given dimension and raises
IndexError when the dimension is out of range. -/
def tensorSize (t : Tensor) (dim : Nat) : Except String Int :=
  match t.shape[dim]? with
  | some s => Except.ok (Int.ofNat s)
  | Option.none => Except.error "IndexError: dimension out of range"

/-- A training batch as `BatchSizeLogger` can receive it: a chunkable
array-like holding its items (supports len and item access, not a tuple
or list), a tuple/list of tensor components, or None. -/
inductive Batch where
  | chunkable (items : List Tensor) : Batch
  | seq (components : List Tensor) : Batch
  | noneBatch : Batch

/-- `is_chunkable(batch)` from src/mlpug/utils/utils.py: the batch is not
None, not a tuple or list, and has callable `__len__` and
`__getitem__`. -/
def is_chunkable : Batch → Bool
  | Batch.chunkable _ => true
  | Batch.seq _ => false
  | Batch.noneBatch => false

/-- Python `len(training_batch)` on the modelled batch forms. -/
def batchLen : Batch → Except String Int
  | Batch.chunkable items => Except.ok (Int.ofNat items.length)
  | Batch.seq components => Except.ok (Int.ofNat components.length)
  | Batch.noneBatch => Except.error "TypeError: object of type NoneType has no len"

/-- Python `training_batch[0]` on the modelled batch forms. -/
def batchFirst : Batch → Except String Tensor
  | Batch.chunkable (t :: _) => Except.ok t
  | Batch.chunkable [] => Except.error "IndexError: index out of range"
  | Batch.seq (t :: _) => Except.ok t
  | Batch.seq [] => Except.error "IndexError: tuple index out of range"
  | Batch.noneBatch => Except.error "TypeError: NoneType is not subscriptable"

/-- `BatchSizeLogger.on_batch_training_start(training_batch, logs)` from
src/mlpug/trainers/callbacks/basic.py. It reads the logs base subtree and
executes `current['training_params']['batch']['batch_size'] =
len(training_batch) if is_chunkable(training_batch) else
training_batch[0].size(self._batch_dimension)`, then returns True.
Python evaluates the right-hand side first, then the assignment target's
subscript chain; the in-place mutation becomes a functional write-back
along the traversed path, returning the updated logs. -/
def batchSizeLogger_on_batch_training_start (batch_dimension : Nat)
    (logs_base_path : String) (training_batch : Batch) (logs : PyVal) :
    Except String (PyVal × Bool) :=
  match getItem logs logs_base_path with
  | Except.error e => Except.error e
  | Except.ok current =>
    match (if is_chunkable training_batch then batchLen training_batch
           else
             match batchFirst training_batch with
             | Except.error e => Except.error e
             | Except.ok t => tensorSize t batch_dimension) with
    | Except.error e => Except.error e
    | Except.ok n =>
      match getItem current "training_params" with
      | Except.error e => Except.error e
      | Except.ok tp =>
        match getItem tp "batch" with
        | Except.error e => Except.error e
        | Except.ok b =>
          match setItem b "batch_size" (PyVal.int n) with
          | Except.error e => Except.error e
          | Except.ok b1 =>
            match setItem tp "batch" b1 with
            | Except.error e => Except.error e
            | Except.ok tp1 =>
              match setItem current "training_params" tp1 with
              | Except.error e => Except.error e
              | Except.ok current1 =>
                match setItem logs logs_base_path current1 with
                | Except.error e => Except.error e
                | Except.ok logs1 => Except.ok (logs1, true)

/-- Configuration of a `LogProgress` callback (defaults: log_period 200,
set_names ["training"], batch_level true, logs_base_path "current"). -/
structure LogProgressCfg where
  log_period : Int
  set_names : List String
  batch_level : Bool
  logs_base_path : String

/-- Left-justified padding to a field width, Python format spec `<`. -/
def padTo (s : String) (n : Nat) : String :=
  s ++ String.mk (List.replicate (n - s.length) ' ')

/-- `LogProgress.metric_level_names` lookup; the hooks only apply it to
the four fixed level names stored in the source dict. -/
def metricLevelName : String → String
  | "batch" => "Batch"
  | "window_average" => "Moving average"
  | "dataset" => "Computed over dataset"
  | "epoch" => "Epoch"
  | other => other

/-- The body of the try block in `LogProgress._calc_eta`: reads
`current["training_params"]["window_average"]["duration"]`, and when it
is a positive number computes the remaining time from
`current["batch_step"]` and `logs["final_batch_step"]`. Any exception in
the body is caught by the source and leaves the result unset (None here);
a non-positive duration also leaves it unset. Durations are ints in this
model and timedelta formatting is abstracted to `toString`. -/
def calcEtaBody (current logs : PyVal) : Option String :=
  match getItem current "training_params" with
  | Except.error _ => Option.none
  | Except.ok tp =>
    match getItem tp "window_average" with
    | Except.error _ => Option.none
    | Except.ok wa =>
      match getItem wa "duration" with
      | Except.error _ => Option.none
      | Except.ok dur =>
        match dur with
        | PyVal.int d =>
          if 0 < d then
            match getItem current "batch_step", getItem logs "final_batch_step" with
            | Except.ok (PyVal.int bs), Except.ok (PyVal.int fbs) =>
              some (toString (d * (fbs - bs + 1)))
            | _, _ => Option.none
          else Option.none
        | _ => Option.none

/-- `LogProgress._calc_eta(logs)`: `_get_logs_base` runs outside the try
block, so its failure propagates; everything else degrades to the
"[UNKNOWN]" placeholder. -/
def calcEta (cfg : LogProgressCfg) (logs : PyVal) : Except String String :=
  match getItem logs cfg.logs_base_path with
  | Except.error e => Except.error e
  | Except.ok current => Except.ok ((calcEtaBody current logs).getD "[UNKNOWN]")

/-- The body of the try block in `LogProgress._get_average_batch_duration`:
the window-average duration in milliseconds when positive. -/
def avgDurationBody (current : PyVal) : Option String :=
  match getItem current "training_params" with
  | Except.error _ => Option.none
  | Except.ok tp =>
    match getItem tp "window_average" with
    | Except.error _ => Option.none
    | Except.ok wa =>
      match getItem wa "duration" with
      | Except.error _ => Option.none
      | Except.ok dur =>
        match dur with
        | PyVal.int d => if 0 < d then some (toString (d * 1000) ++ "ms") else Option.none
        | _ => Option.none

/-- `LogProgress._get_average_batch_duration(logs)`. -/
def getAverageBatchDuration (cfg : LogProgressCfg) (logs : PyVal) : Except String String :=
  match getItem logs cfg.logs_base_path with
  | Except.error e => Except.error e
  | Except.ok current => Except.ok ((avgDurationBody current).getD "[UNKNOWN]")

/-- The body of the try block in `LogProgress._get_epoch_duration`:
`current["training_params"]["epoch"]["duration"]` formatted as a
timedelta (abstracted to `toString`). -/
def epochDurationBody (current : PyVal) : Option String :=
  match getItem current "training_params" with
  | Except.error _ => Option.none
  | Except.ok tp =>
    match getItem tp "epoch" with
    | Except.error _ => Option.none
    | Except.ok ep =>
      match getItem ep "duration" with
      | Except.error _ => Option.none
      | Except.ok dur =>
        match dur with
        | PyVal.int d => some (toString d)
        | _ => Option.none

/-- `LogProgress._get_epoch_duration(logs)`. -/
def getEpochDuration (cfg : LogProgressCfg) (logs : PyVal) : Except String String :=
  match getItem logs cfg.logs_base_path with
  | Except.error e => Except.error e
  | Except.ok current => Except.ok ((epochDurationBody current).getD "[UNKNOWN]")

/-- One metric-value entry of `LogProgress._create_log_for`: ints format
as name plus value (float formatting widths abstracted); any other value
raises inside the source's try block, caught by the caller. -/
def formatMetricValue (metric : String) (v : PyVal) : Option String :=
  match v with
  | PyVal.int n => some (padTo metric 9 ++ " " ++ toString n)
  | _ => Option.none

/-- The prefix built by `LogProgress._create_log_for`: a newline for
nested levels, one tab per depth, and the padded base metric name. -/
def logPrefix (base_metric : Option String) (log_depth : Nat) : String :=
  (if 0 < log_depth then "\n" else "") ++ String.mk (List.replicate log_depth '\t') ++
    (match base_metric with
     | some base => padTo base 15 ++ ": "
     | Option.none => "")

/-- Python `", ".join`. -/
def joinComma : List String → String
  | [] => ""
  | [s] => s
  | s :: rest => s ++ ", " ++ joinComma rest

mutual

/-- `LogProgress._create_log_for(metrics, base_metric, log_depth)` from
src/mlpug/trainers/callbacks/basic.py: None for a non-mapping or when no
metric keys remain after removing "auxiliary_results" and "duration";
otherwise the joined entry logs behind the depth prefix. Exceptions from
an empty tuple value propagate. -/
def createLogFor : PyVal → Option String → Nat → Except String (Option String)
  | PyVal.dict es, base_metric, log_depth =>
    if (es.filter (fun e =>
          decide (e.1 ≠ "auxiliary_results") && decide (e.1 ≠ "duration"))).isEmpty then
      Except.ok Option.none
    else
      match createLogEntries es log_depth with
      | Except.error e => Except.error e
      | Except.ok entry_logs =>
        Except.ok (some (logPrefix base_metric log_depth ++ joinComma entry_logs))
  | _, _, _ => Except.ok Option.none

/-- The entry loop of `_create_log_for`: skip the bookkeeping keys; a
tuple value displays its first element (empty tuple: IndexError); a dict
value recurses one level deeper and contributes only when non-None; any
other value formats, degrading to "[UNKNOWN]" on failure. -/
def createLogEntries : List (String × PyVal) → Nat → Except String (List String)
  | [], _ => Except.ok []
  | (metric, PyVal.tuple []) :: rest, log_depth =>
    if metric = "auxiliary_results" || metric = "duration" then
      createLogEntries rest log_depth
    else
      Except.error "IndexError: tuple index out of range"
  | (metric, PyVal.tuple (PyVal.dict nested :: _)) :: rest, log_depth =>
    if metric = "auxiliary_results" || metric = "duration" then
      createLogEntries rest log_depth
    else
      match createLogFor (PyVal.dict nested) (some metric) (log_depth + 1) with
      | Except.error e => Except.error e
      | Except.ok Option.none => createLogEntries rest log_depth
      | Except.ok (some nested_log) =>
        match createLogEntries rest log_depth with
        | Except.error e => Except.error e
        | Except.ok ls => Except.ok (("\n" ++ nested_log) :: ls)
  | (metric, PyVal.dict nested) :: rest, log_depth =>
    if metric = "auxiliary_results" || metric = "duration" then
      createLogEntries rest log_depth
    else
      match createLogFor (PyVal.dict nested) (some metric) (log_depth + 1) with
      | Except.error e => Except.error e
      | Except.ok Option.none => createLogEntries rest log_depth
      | Except.ok (some nested_log) =>
        match createLogEntries rest log_depth with
        | Except.error e => Except.error e
        | Except.ok ls => Except.ok (("\n" ++ nested_log) :: ls)
  | (metric, PyVal.tuple (w :: _)) :: rest, log_depth =>
    if metric = "auxiliary_results" || metric = "duration" then
      createLogEntries rest log_depth
    else
      match createLogEntries rest log_depth with
      | Except.error e => Except.error e
      | Except.ok ls => Except.ok (((formatMetricValue metric w).getD "[UNKNOWN]") :: ls)
  | (metric, w) :: rest, log_depth =>
    if metric = "auxiliary_results" || metric = "duration" then
      createLogEntries rest log_depth
    else
      match createLogEntries rest log_depth with
      | Except.error e => Except.error e
      | Except.ok ls => Except.ok (((formatMetricValue metric w).getD "[UNKNOWN]") :: ls)

end

/-- `LogProgress._create_set_metrics_log_for(set_name, metric_level, logs)`:
reads the metrics at `set_name.metric_level` below the logs base and
formats them. -/
def createSetMetricsLogFor (cfg : LogProgressCfg) (set_name metric_level : String)
    (logs : PyVal) : Except String (Option String) :=
  match getItem logs cfg.logs_base_path with
  | Except.error e => Except.error e
  | Except.ok current =>
    match get_value_at (set_name ++ "." ++ metric_level) current with
    | Except.error e => Except.error e
    | Except.ok metrics => createLogFor metrics Option.none 0

/-- The set-name loop of `LogProgress._write_metric_logs`, accumulating
the per-set lines. -/
def writeMetricLogsLoop (cfg : LogProgressCfg) (metric_level : String) (logs : PyVal) :
    List String → Except String String
  | [] => Except.ok ""
  | set_name :: rest =>
    match createSetMetricsLogFor cfg set_name metric_level logs with
    | Except.error e => Except.error e
    | Except.ok Option.none => writeMetricLogsLoop cfg metric_level logs rest
    | Except.ok (some set_log) =>
      match writeMetricLogsLoop cfg metric_level logs rest with
      | Except.error e => Except.error e
      | Except.ok acc => Except.ok (padTo set_name 15 ++ ": " ++ set_log ++ ".\n" ++ acc)

/-- `LogProgress._write_metric_logs(metric_level, logs)`: the text written
for one metric level (empty when no set contributed). -/
def writeMetricLogs (cfg : LogProgressCfg) (metric_level : String) (logs : PyVal) :
    Except String String :=
  match writeMetricLogsLoop cfg metric_level logs cfg.set_names with
  | Except.error e => Except.error e
  | Except.ok body =>
    Except.ok (if body = "" then "" else metricLevelName metric_level ++ ":\n" ++ body)

/-- The metric-level loop shared by the two hooks: each level's metric
text followed by a newline. -/
def writeLevels (cfg : LogProgressCfg) (logs : PyVal) :
    List String → Except String String
  | [] => Except.ok ""
  | level :: rest =>
    match writeMetricLogs cfg level logs with
    | Except.error e => Except.error e
    | Except.ok s =>
      match writeLevels cfg logs rest with
      | Except.error e => Except.error e
      | Except.ok acc => Except.ok (s ++ "\n" ++ acc)

/-- The set-name loop computing `has_dataset_level_metrics` in
`LogProgress.on_batch_training_completed`: true as soon as some set has a
non-empty dict at `set_name.dataset`, breaking early. -/
def hasDatasetMetrics (current : PyVal) : List String → Except String Bool
  | [] => Except.ok false
  | set_name :: rest =>
    match get_value_at (set_name ++ ".dataset") current with
    | Except.error e => Except.error e
    | Except.ok (PyVal.dict es) =>
      if es.isEmpty then hasDatasetMetrics current rest else Except.ok true
    | Except.ok _ => hasDatasetMetrics current rest

/-- The logging condition `batch_step == 0 or batch_step %% log_period == 0
or has_dataset_level_metrics` with Python's evaluation order: equality
with 0 never raises; the modulo raises TypeError on a non-int step and
ZeroDivisionError on a zero period. -/
def shouldLog (batch_step : PyVal) (log_period : Int) (has_dataset : Bool) :
    Except String Bool :=
  match batch_step with
  | PyVal.int b =>
    if b = 0 then Except.ok true
    else if log_period = 0 then Except.error "ZeroDivisionError: integer modulo by zero"
    else if b % log_period = 0 then Except.ok true
    else Except.ok has_dataset
  | _ => Except.error "TypeError: unsupported operand type for modulo"

/-- Python `"... Epoch {:d} ..."`-style int formatting: requires an int. -/
def formatInt (v : PyVal) : Except String String :=
  match v with
  | PyVal.int n => Except.ok (toString n)
  | _ => Except.error "ValueError: format specifier d requires an integer"

/-- The progress block written by `LogProgress.on_batch_training_completed`
when the logging condition holds: the epoch/ETA/batch header followed by
the four metric levels. -/
def batchProgressText (cfg : LogProgressCfg) (logs current : PyVal) :
    Except String String :=
  match calcEta cfg logs with
  | Except.error e => Except.error e
  | Except.ok eta =>
    match getAverageBatchDuration cfg logs with
    | Except.error e => Except.error e
    | Except.ok average_duration =>
      match getItem current "epoch" with
      | Except.error e => Except.error e
      | Except.ok epochv =>
        match formatInt epochv with
        | Except.error e => Except.error e
        | Except.ok epochs =>
          match getItem logs "final_epoch" with
          | Except.error e => Except.error e
          | Except.ok fepochv =>
            match formatInt fepochv with
            | Except.error e => Except.error e
            | Except.ok fepochs =>
              match getItem current "batch_step" with
              | Except.error e => Except.error e
              | Except.ok bstepv =>
                match formatInt bstepv with
                | Except.error e => Except.error e
                | Except.ok bsteps =>
                  match getItem logs "final_batch_step" with
                  | Except.error e => Except.error e
                  | Except.ok fbstepv =>
                    match formatInt fbstepv with
                    | Except.error e => Except.error e
                    | Except.ok fbsteps =>
                      match writeLevels cfg logs
                          ["batch", "window_average", "dataset", "epoch"] with
                      | Except.error e => Except.error e
                      | Except.ok levels =>
                        Except.ok ("\nEpoch " ++ epochs ++ "/" ++ fepochs ++
                          " - ETA: " ++ eta ++ "\tBatch " ++ bsteps ++ "/" ++ fbsteps ++
                          " Average batch training time " ++ average_duration ++ "\n" ++
                          levels ++ "\n")

/-- `LogProgress.on_batch_training_completed(training_batch, logs)` from
src/mlpug/trainers/callbacks/basic.py. Returns the (unchanged) logs, the
text written to the progress stream, and the success flag. The
training_batch argument is unused by the source body. -/
def logProgress_on_batch_training_completed (cfg : LogProgressCfg) (logs : PyVal) :
    Except String (PyVal × String × Bool) :=
  if cfg.batch_level = false then Except.ok (logs, "", true)
  else
    match getItem logs cfg.logs_base_path with
    | Except.error e => Except.error e
    | Except.ok current =>
      match getItem current "batch_step" with
      | Except.error e => Except.error e
      | Except.ok batch_step =>
        match hasDatasetMetrics current cfg.set_names with
        | Except.error e => Except.error e
        | Except.ok has_dataset =>
          match shouldLog batch_step cfg.log_period has_dataset with
          | Except.error e => Except.error e
          | Except.ok false => Except.ok (logs, "", true)
          | Except.ok true =>
            match batchProgressText cfg logs current with
            | Except.error e => Except.error e
            | Except.ok out => Except.ok (logs, out, true)

/-- The text written by `LogProgress.on_epoch_completed`: separator,
epoch-ready header, then the three epoch-level metric blocks. -/
def epochProgressText (cfg : LogProgressCfg) (logs current : PyVal) :
    Except String String :=
  match getEpochDuration cfg logs with
  | Except.error e => Except.error e
  | Except.ok duration =>
    match getItem current "epoch" with
    | Except.error e => Except.error e
    | Except.ok epochv =>
      match formatInt epochv with
      | Except.error e => Except.error e
      | Except.ok epochs =>
        match getItem logs "final_epoch" with
        | Except.error e => Except.error e
        | Except.ok fepochv =>
          match formatInt fepochv with
          | Except.error e => Except.error e
          | Except.ok fepochs =>
            match writeLevels cfg logs ["window_average", "dataset", "epoch"] with
            | Except.error e => Except.error e
            | Except.ok levels =>
              Except.ok ("\n" ++
                "###############################################################################" ++
                "\n" ++ "Epoch " ++ epochs ++ "/" ++ fepochs ++ "\tREADY - Duration " ++
                duration ++ "\n" ++ levels ++ "\n")

/-- `LogProgress.on_epoch_completed(logs)` from
src/mlpug/trainers/callbacks/basic.py. Returns the (unchanged) logs, the
text written to the progress stream, and the success flag. -/
def logProgress_on_epoch_completed (cfg : LogProgressCfg) (logs : PyVal) :
    Except String (PyVal × String × Bool) :=
  match getItem logs cfg.logs_base_path with
  | Except.error e => Except.error e
  | Except.ok current =>
    match epochProgressText cfg logs current with
    | Except.error e => Except.error e
    | Except.ok out => Except.ok (logs, out, true)

example : splitKeys "a.b" = ["a", "b"] := rfl

example : splitKeys "" = [""] := rfl

example : set_value_at "a.b" (PyVal.dict []) (PyVal.int 42) =
    Except.ok (PyVal.dict [("a", PyVal.dict [("b", PyVal.int 42)])]) := rfl

example : get_value_at "a.b" (PyVal.dict [("a", PyVal.dict [("b", PyVal.int 42)])]) PyVal.none =
    Except.ok (PyVal.int 42) := rfl

example : get_value_at "ell" (PyVal.str "hello") (PyVal.int 7) =
    Except.error "TypeError: string indices must be integers" := rfl

example : set_value_at "a.b" (PyVal.dict [("a", PyVal.int 5)]) (PyVal.int 1) =
    Except.error "Exception: invalid path, cannot get or set keys for provided nested data variable" := rfl

theorem lookupEntry_setEntry_self (k : String) (v : PyVal) (es : List (String × PyVal)) :
    lookupEntry k (setEntry k v es) = some v := by
  induction es with
  | nil => simp [setEntry, lookupEntry]
  | cons e es ih =>
    by_cases h : e.1 = k
    · simp [setEntry, lookupEntry, h]
    · simp [setEntry, lookupEntry, h, ih]

theorem setItem_ok {o : PyVal} {k : String} {v t' : PyVal}
    (h : setItem o k v = Except.ok t') :
    ∃ es, o = PyVal.dict es ∧ t' = PyVal.dict (setEntry k v es) := by
  cases o with
  | dict es =>
    refine ⟨es, rfl, ?_⟩
    simp only [setItem] at h
    exact (Except.ok.inj h).symm
  | none => exact absurd h (by simp [setItem])
  | int n => exact absurd h (by simp [setItem])
  | str s => exact absurd h (by simp [setItem])
  | list xs => exact absurd h (by simp [setItem])
  | tuple xs => exact absurd h (by simp [setItem])

theorem has_key_setEntry (k : String) (v : PyVal) (es : List (String × PyVal)) :
    has_key (PyVal.dict (setEntry k v es)) k = true := by
  simp [has_key, hasIter, inOp, lookupEntry_setEntry_self]

theorem getItem_setEntry (k : String) (v : PyVal) (es : List (String × PyVal)) :
    getItem (PyVal.dict (setEntry k v es)) k = Except.ok v := by
  simp [getItem, lookupEntry_setEntry_self]

/-- After a successful `setValueLoop` on a key list, walking the same key
list with `getValueLoop` retrieves exactly the stored value. -/
theorem getValueLoop_setValueLoop :
    ∀ (keys : List String) (t v t' : PyVal),
      setValueLoop keys t v = Except.ok t' → getValueLoop keys t' = Except.ok v := by
  intro keys
  induction keys with
  | nil =>
    intro t v t' h
    simp only [setValueLoop] at h
    split at h <;> exact absurd h (by simp)
  | cons k rest ih =>
    intro t v t' h
    cases rest with
    | nil =>
      simp only [setValueLoop] at h
      split at h
      · obtain ⟨es, rfl, rfl⟩ := setItem_ok h
        simp only [getValueLoop, has_key_setEntry, if_true, getItem_setEntry]
      · exact absurd h (by simp)
    | cons k2 rest2 =>
      simp only [setValueLoop] at h
      split at h
      · split at h
        · exact absurd h (by simp)
        · split at h
          · exact absurd h (by simp)
          · split at h
            · exact absurd h (by simp)
            · obtain ⟨es, rfl, rfl⟩ := setItem_ok h
              simp only [getValueLoop, has_key_setEntry, if_true, getItem_setEntry]
              exact ih _ v _ (by assumption)
      · exact absurd h (by simp)

theorem splitDots_ne_nil : ∀ cs : List Char, splitDots cs ≠ [] := by
  intro cs
  cases cs with
  | nil => simp [splitDots]
  | cons c cs =>
    simp only [splitDots]
    split
    · simp
    · split <;> simp

theorem splitKeys_ne_nil (p : String) : splitKeys p ≠ [] := by
  simp only [splitKeys, ne_eq, List.map_eq_nil_iff]
  exact splitDots_ne_nil p.data

theorem setValueLoop_fresh :
    ∀ (keys : List String), keys ≠ [] → ∀ (v : PyVal),
      ∃ t', setValueLoop keys (PyVal.dict []) v = Except.ok t' := by
  intro keys
  induction keys with
  | nil => intro h; exact absurd rfl h
  | cons k rest ih =>
    intro _ v
    cases rest with
    | nil => exact ⟨PyVal.dict [(k, v)], rfl⟩
    | cons k2 rest2 =>
      obtain ⟨child1, hchild1⟩ := ih (by simp) v
      refine ⟨PyVal.dict (setEntry k child1 []), ?_⟩
      simp only [setValueLoop, can_get_and_set_values, if_true]
      have hnk : has_key (PyVal.dict ([] : List (String × PyVal))) k = false := rfl
      rw [hnk]
      simp [setItem, setEntry, getItem, lookupEntry, hchild1]

theorem setOkPath_of_ok :
    ∀ (keys : List String) (t v t' : PyVal),
      setValueLoop keys t v = Except.ok t' → setOkPath keys t = true := by
  intro keys
  induction keys with
  | nil =>
    intro t v t' h
    simp only [setValueLoop] at h
    split at h <;> exact absurd h (by simp)
  | cons k rest ih =>
    intro t v t' h
    cases rest with
    | nil =>
      simp only [setValueLoop] at h
      split at h
      · obtain ⟨es, rfl, rfl⟩ := setItem_ok h
        rfl
      · exact absurd h (by simp)
    | cons k2 rest2 =>
      cases t with
      | dict es =>
        simp only [setValueLoop, can_get_and_set_values, if_true] at h
        cases hl : lookupEntry k es with
        | none => simp [setOkPath, hl]
        | some child =>
          have hk : has_key (PyVal.dict es) k = true := by
            simp [has_key, hasIter, inOp, hl]
          rw [hk] at h
          simp only [if_true, getItem, hl] at h
          cases hrec : setValueLoop (k2 :: rest2) child v with
          | error e => rw [hrec] at h; exact absurd h (by simp)
          | ok child1 =>
            rw [hrec] at h
            simp only [setOkPath, hl]
            exact ih child v child1 hrec
      | list xs =>
        simp only [setValueLoop, can_get_and_set_values, if_true] at h
        cases hk : has_key (PyVal.list xs) k <;>
          rw [hk] at h <;> simp [setItem, getItem] at h
      | none => simp [setValueLoop, can_get_and_set_values] at h
      | int n => simp [setValueLoop, can_get_and_set_values] at h
      | str s => simp [setValueLoop, can_get_and_set_values] at h
      | tuple xs => simp [setValueLoop, can_get_and_set_values] at h

theorem ok_of_setOkPath :
    ∀ (keys : List String) (t : PyVal), setOkPath keys t = true →
      ∀ v, ∃ t', setValueLoop keys t v = Except.ok t' := by
  intro keys
  induction keys with
  | nil => intro t h v; simp [setOkPath] at h
  | cons k rest ih =>
    intro t h v
    cases rest with
    | nil =>
      cases t with
      | dict es => exact ⟨PyVal.dict (setEntry k v es), rfl⟩
      | none => simp [setOkPath] at h
      | int n => simp [setOkPath] at h
      | str s => simp [setOkPath] at h
      | list xs => simp [setOkPath] at h
      | tuple xs => simp [setOkPath] at h
    | cons k2 rest2 =>
      cases t with
      | dict es =>
        cases hl : lookupEntry k es with
        | some child =>
          simp only [setOkPath, hl] at h
          obtain ⟨t2, h2⟩ := ih child h v
          refine ⟨PyVal.dict (setEntry k t2 es), ?_⟩
          have hk : has_key (PyVal.dict es) k = true := by
            simp [has_key, hasIter, inOp, hl]
          simp only [setValueLoop, can_get_and_set_values, if_true, hk, getItem, hl, h2,
            setItem]
        | none =>
          have hk : has_key (PyVal.dict es) k = false := by
            simp [has_key, hasIter, inOp, hl]
          obtain ⟨t2, h2⟩ := setValueLoop_fresh (k2 :: rest2) (by simp) v
          refine ⟨PyVal.dict (setEntry k t2 (setEntry k (PyVal.dict []) es)), ?_⟩
          simp only [setValueLoop, can_get_and_set_values, if_true, hk, Bool.false_eq_true,
            if_false, setItem, getItem, lookupEntry_setEntry_self, h2]
      | none => simp [setOkPath] at h
      | int n => simp [setOkPath] at h
      | str s => simp [setOkPath] at h
      | list xs => simp [setOkPath] at h
      | tuple xs => simp [setOkPath] at h

theorem setOkPath_empty_dict : ∀ (keys : List String), keys ≠ [] →
    setOkPath keys (PyVal.dict []) = true := by
  intro keys h
  cases keys with
  | nil => exact absurd rfl h
  | cons k rest =>
    cases rest with
    | nil => rfl
    | cons k2 rest2 => simp [setOkPath, lookupEntry]

/-- Claim C1: for every valid dotted path P and value V, after
`set_value_at(P, tree, V)` completes, a subsequent `get_value_at(P, tree)`
(with its default of None) returns V; and on an initially empty mapping
`set_value_at` always completes (auto-creating the missing intermediate
containers). -/
theorem claim_C1_set_get_roundtrip (p : String) (value : PyVal) :
    (∀ tree tree', set_value_at p tree value = Except.ok tree' →
      get_value_at p tree' = Except.ok value) ∧
    (∃ tree', set_value_at p (PyVal.dict []) value = Except.ok tree') := by
  constructor
  · intro tree tree' h
    have hloop := getValueLoop_setValueLoop (splitKeys p) tree value tree' h
    simp only [get_value_at, hloop]
    cases value <;> rfl
  · exact ok_of_setOkPath (splitKeys p) (PyVal.dict [])
      (setOkPath_empty_dict (splitKeys p) (splitKeys_ne_nil p)) value

theorem claim_C1_set_get_roundtrip_witness :
    set_value_at "a.b" (PyVal.dict []) (PyVal.int 42) =
      Except.ok (PyVal.dict [("a", PyVal.dict [("b", PyVal.int 42)])]) ∧
    get_value_at "a.b" (PyVal.dict [("a", PyVal.dict [("b", PyVal.int 42)])]) =
      Except.ok (PyVal.int 42) :=
  ⟨rfl, (claim_C1_set_get_roundtrip "a.b" (PyVal.int 42)).1 (PyVal.dict []) _ rfl⟩

/-- Claim C4 (amended): `set_value_at` completes without raising exactly
when the root and every existing value it traverses at a non-final
segment is a dict; missing intermediate segments never cause a raise
(empty dicts are created). In particular a root that supports item get
and set (e.g. a dict whose traversed entry holds a scalar, or a list) is
not sufficient to rule out an exception. -/
theorem claim_C4_amended_set_throws_iff (p : String) (tree value : PyVal) :
    (∃ tree', set_value_at p tree value = Except.ok tree') ↔
      setOkPath (splitKeys p) tree = true := by
  constructor
  · rintro ⟨tree', h⟩
    exact setOkPath_of_ok (splitKeys p) tree value tree' h
  · intro h
    exact ok_of_setOkPath (splitKeys p) tree h value

/-- Claim C4 counterexample: the root `{"a": 5}` supports item get and
set, yet `set_value_at("a.b", root, 1)` raises, because the existing
intermediate value 5 cannot be indexed. -/
theorem claim_C4_counterexample :
    can_get_and_set_values (PyVal.dict [("a", PyVal.int 5)]) = true ∧
    set_value_at "a.b" (PyVal.dict [("a", PyVal.int 5)]) (PyVal.int 1) =
      Except.error "Exception: invalid path, cannot get or set keys for provided nested data variable" :=
  ⟨rfl, rfl⟩

theorem isSafeEntries_lookup {es : List (String × PyVal)} {k : String} {child : PyVal}
    (hsafe : isSafeEntries es = true) (hl : lookupEntry k es = some child) :
    isSafeTree child = true := by
  induction es with
  | nil => simp [lookupEntry] at hl
  | cons e es ih =>
    simp only [isSafeEntries, Bool.and_eq_true] at hsafe
    simp only [lookupEntry] at hl
    by_cases he : e.1 = k
    · rw [if_pos he] at hl
      cases hl
      exact hsafe.1
    · rw [if_neg he] at hl
      exact ih hsafe.2 hl

theorem getValueLoop_resolvePath :
    ∀ (keys : List String) (t v : PyVal),
      resolvePath keys t = some v → getValueLoop keys t = Except.ok v := by
  intro keys
  induction keys with
  | nil =>
    intro t v h
    simp only [resolvePath, Option.some.injEq] at h
    rw [h]
    rfl
  | cons k rest ih =>
    intro t v h
    cases t with
    | dict es =>
      simp only [resolvePath] at h
      cases hl : lookupEntry k es with
      | none => rw [hl] at h; exact absurd h (by simp)
      | some child =>
        rw [hl] at h
        have hk : has_key (PyVal.dict es) k = true := by
          simp [has_key, hasIter, inOp, hl]
        simp only [getValueLoop, hk, if_true, getItem, hl]
        exact ih child v h
    | none => simp [resolvePath] at h
    | int n => simp [resolvePath] at h
    | str s => simp [resolvePath] at h
    | list xs => simp [resolvePath] at h
    | tuple xs => simp [resolvePath] at h

theorem getValueLoop_safe_total :
    ∀ (keys : List String) (t : PyVal), isSafeTree t = true →
      ∃ v, getValueLoop keys t = Except.ok v := by
  intro keys
  induction keys with
  | nil => intro t _; exact ⟨t, rfl⟩
  | cons k rest ih =>
    intro t hsafe
    cases t with
    | dict es =>
      cases hl : lookupEntry k es with
      | none =>
        have hk : has_key (PyVal.dict es) k = false := by
          simp [has_key, hasIter, inOp, hl]
        exact ⟨PyVal.none, by simp [getValueLoop, hk]⟩
      | some child =>
        have hk : has_key (PyVal.dict es) k = true := by
          simp [has_key, hasIter, inOp, hl]
        have hcs : isSafeTree child = true := by
          simp only [isSafeTree] at hsafe
          exact isSafeEntries_lookup hsafe hl
        obtain ⟨v, hv⟩ := ih child hcs
        exact ⟨v, by simp [getValueLoop, hk, getItem, hl, hv]⟩
    | none => exact ⟨PyVal.none, rfl⟩
    | int n => exact ⟨PyVal.none, rfl⟩
    | str s => simp [isSafeTree] at hsafe
    | list xs => simp [isSafeTree] at hsafe
    | tuple xs => simp [isSafeTree] at hsafe

theorem getValueLoop_safe_unresolved :
    ∀ (keys : List String) (t : PyVal), isSafeTree t = true →
      resolvePath keys t = Option.none →
      getValueLoop keys t = Except.ok PyVal.none := by
  intro keys
  induction keys with
  | nil => intro t _ h; simp [resolvePath] at h
  | cons k rest ih =>
    intro t hsafe h
    cases t with
    | dict es =>
      cases hl : lookupEntry k es with
      | none =>
        have hk : has_key (PyVal.dict es) k = false := by
          simp [has_key, hasIter, inOp, hl]
        simp [getValueLoop, hk]
      | some child =>
        simp only [resolvePath, hl] at h
        have hk : has_key (PyVal.dict es) k = true := by
          simp [has_key, hasIter, inOp, hl]
        have hcs : isSafeTree child = true := by
          simp only [isSafeTree] at hsafe
          exact isSafeEntries_lookup hsafe hl
        simp only [getValueLoop, hk, if_true, getItem, hl]
        exact ih child hcs h
    | none => rfl
    | int n => rfl
    | str s => simp [isSafeTree] at hsafe
    | list xs => simp [isSafeTree] at hsafe
    | tuple xs => simp [isSafeTree] at hsafe

/-- Claim C3 counterexample: `get_value_at` can raise. On the nested data
`"hello"` with path `"ell"`, `has_key` succeeds (substring containment)
but string indexing by a string key is a TypeError, so the call raises
instead of returning the default 7. -/
theorem claim_C3_counterexample :
    get_value_at "ell" (PyVal.str "hello") (PyVal.int 7) =
      Except.error "TypeError: string indices must be integers" := rfl

/-- Claim C3 (amended): on trees whose nodes are dicts, ints or None,
`get_value_at` never raises, and whenever the dotted path fails to
resolve it returns the supplied default. (Unrestricted trees admit the
counterexample: a str or list node for which `in` succeeds raises
TypeError on indexing.) -/
theorem claim_C3_amended_get_default_no_raise (p : String) (tree default : PyVal)
    (hsafe : isSafeTree tree = true) :
    (∃ v, get_value_at p tree default = Except.ok v) ∧
    (resolvePath (splitKeys p) tree = Option.none →
      get_value_at p tree default = Except.ok default) := by
  constructor
  · obtain ⟨v, hv⟩ := getValueLoop_safe_total (splitKeys p) tree hsafe
    cases v with
    | none => exact ⟨default, by simp only [get_value_at, hv]⟩
    | int n => exact ⟨PyVal.int n, by simp only [get_value_at, hv]⟩
    | str s => exact ⟨PyVal.str s, by simp only [get_value_at, hv]⟩
    | dict es => exact ⟨PyVal.dict es, by simp only [get_value_at, hv]⟩
    | list xs => exact ⟨PyVal.list xs, by simp only [get_value_at, hv]⟩
    | tuple xs => exact ⟨PyVal.tuple xs, by simp only [get_value_at, hv]⟩
  · intro h
    have hv := getValueLoop_safe_unresolved (splitKeys p) tree hsafe h
    simp only [get_value_at, hv]

theorem claim_C3_amended_witness :
    isSafeTree (PyVal.dict [("a", PyVal.int 1)]) = true ∧
    resolvePath (splitKeys "b.c") (PyVal.dict [("a", PyVal.int 1)]) = Option.none ∧
    get_value_at "b.c" (PyVal.dict [("a", PyVal.int 1)]) (PyVal.int 9) =
      Except.ok (PyVal.int 9) := by
  have hs : isSafeTree (PyVal.dict [("a", PyVal.int 1)]) = true := by
    simp [isSafeTree, isSafeEntries]
  exact ⟨hs, rfl,
    (claim_C3_amended_get_default_no_raise "b.c" (PyVal.dict [("a", PyVal.int 1)])
      (PyVal.int 9) hs).2 rfl⟩

/-- Claim C9: `get_value_at` cannot distinguish a stored None from a
missing path. Whenever the path resolves successfully and the stored
value is None, the call returns the supplied default, exactly as for an
absent path. -/
theorem claim_C9_stored_none_returns_default (p : String) (tree default : PyVal)
    (h : resolvePath (splitKeys p) tree = some PyVal.none) :
    get_value_at p tree default = Except.ok default := by
  have hv := getValueLoop_resolvePath (splitKeys p) tree PyVal.none h
  simp only [get_value_at, hv]

theorem claim_C9_stored_none_returns_default_witness :
    resolvePath (splitKeys "a") (PyVal.dict [("a", PyVal.none)]) = some PyVal.none ∧
    get_value_at "a" (PyVal.dict [("a", PyVal.none)]) (PyVal.int 7) =
      Except.ok (PyVal.int 7) :=
  ⟨rfl, claim_C9_stored_none_returns_default "a" (PyVal.dict [("a", PyVal.none)])
    (PyVal.int 7) rfl⟩

theorem foldl_min_const : ∀ (l : List Nat) (n : Nat), (∀ x ∈ l, x = n) →
    l.foldl min n = n := by
  intro l
  induction l with
  | nil => intro n _; rfl
  | cons x xs ih =>
    intro n h
    have hx : x = n := h x (by simp)
    simp only [List.foldl_cons, hx, Nat.min_self]
    exact ih n (fun y hy => h y (by simp [hy]))

theorem min?_of_rect {α : Type} (u : List (List α)) (n : Nat) (hne : u ≠ [])
    (hrect : ∀ r ∈ u, r.length = n) : (u.map List.length).min? = some n := by
  cases u with
  | nil => exact absurd rfl hne
  | cons r rs =>
    have hr : r.length = n := hrect r (by simp)
    simp only [List.map_cons, List.min?_cons', hr]
    rw [foldl_min_const]
    intro x hx
    simp only [List.mem_map] at hx
    obtain ⟨row, hrow, rfl⟩ := hx
    exact hrect row (by simp [hrow])

theorem filterMap_some_getElem? {γ δ : Type} (l : List γ) (f : γ → Option δ)
    (h : ∀ x ∈ l, (f x).isSome) :
    ∀ i : Nat, (l.filterMap f)[i]? = l[i]?.bind f := by
  induction l with
  | nil => intro i; simp
  | cons x xs ih =>
    intro i
    obtain ⟨y, hy⟩ := Option.isSome_iff_exists.mp (h x (by simp))
    rw [List.filterMap_cons_some hy]
    cases i with
    | zero => simp [hy]
    | succ i =>
      simp only [List.getElem?_cons_succ]
      exact ih (fun z hz => h z (by simp [hz])) i

theorem filterMap_some_length {γ δ : Type} (l : List γ) (f : γ → Option δ)
    (h : ∀ x ∈ l, (f x).isSome) : (l.filterMap f).length = l.length := by
  induction l with
  | nil => rfl
  | cons x xs ih =>
    obtain ⟨y, hy⟩ := Option.isSome_iff_exists.mp (h x (by simp))
    rw [List.filterMap_cons_some hy]
    simp only [List.length_cons]
    rw [ih (fun z hz => h z (by simp [hz]))]

/-- On a non-empty rectangular input, `zip(*-)` is an involution. -/
theorem pyZipStar_involution {α : Type} (u : List (List α)) (n : Nat)
    (hne : u ≠ []) (hpos : 0 < n) (hrect : ∀ r ∈ u, r.length = n) :
    pyZipStar (pyZipStar u) = u := by
  have hmin : (u.map List.length).min? = some n := min?_of_rect u n hne hrect
  have hrowsome : ∀ j, j < n → ∀ r ∈ u, (r[j]?).isSome = true := by
    intro j hj r hr
    have hlt : j < r.length := by rw [hrect r hr]; exact hj
    rw [List.getElem?_eq_getElem hlt]
    rfl
  obtain ⟨z, hz⟩ : ∃ z, pyZipStar u = z := ⟨_, rfl⟩
  have hzip : z = (List.range n).map (fun j => u.filterMap (fun row => row[j]?)) := by
    rw [← hz]
    simp [pyZipStar, hmin]
  have hzlen : z.length = n := by simp [hzip]
  have hzrect : ∀ r ∈ z, r.length = u.length := by
    intro r hr
    rw [hzip] at hr
    simp only [List.mem_map, List.mem_range] at hr
    obtain ⟨j, hj, rfl⟩ := hr
    exact filterMap_some_length u _ (hrowsome j hj)
  have hzne : z ≠ [] := by
    intro hcontra
    rw [hcontra] at hzlen
    simp at hzlen
    omega
  have hmin2 : (z.map List.length).min? = some u.length :=
    min?_of_rect _ _ hzne hzrect
  have hzsome : ∀ i, i < u.length → ∀ r ∈ z, (r[i]?).isSome = true := by
    intro i hi r hr
    have hlt : i < r.length := by rw [hzrect r hr]; exact hi
    rw [List.getElem?_eq_getElem hlt]
    rfl
  rw [hz]
  have hzip2 : pyZipStar z =
      (List.range u.length).map (fun i => z.filterMap (fun row => row[i]?)) := by
    simp [pyZipStar, hmin2]
  rw [hzip2]
  apply List.ext_getElem?
  intro i
  rw [List.getElem?_map]
  by_cases hi : i < u.length
  · rw [List.getElem?_range hi]
    simp only [Option.map_some']
    rw [List.getElem?_eq_getElem hi]
    congr 1
    apply List.ext_getElem?
    intro j
    rw [filterMap_some_getElem? z _ (hzsome i hi) j]
    by_cases hj : j < n
    · rw [hzip, List.getElem?_map, List.getElem?_range hj]
      simp only [Option.map_some', Option.some_bind]
      rw [filterMap_some_getElem? u _ (hrowsome j hj) i]
      rw [List.getElem?_eq_getElem hi]
      simp only [Option.some_bind]
    · have h1 : z[j]? = Option.none := by
        rw [List.getElem?_eq_none]
        rw [hzlen]
        omega
      rw [h1]
      simp only [Option.none_bind]
      symm
      rw [List.getElem?_eq_none]
      rw [hrect u[i] (List.getElem_mem hi)]
      omega
  · have h1 : (List.range u.length)[i]? = Option.none := by
      rw [List.getElem?_eq_none]
      simp only [List.length_range]
      omega
    have h2 : u[i]? = Option.none := by
      rw [List.getElem?_eq_none]
      omega
    rw [h1, h2]
    rfl

/-- Claim C2: packing a non-empty rectangular sequence of per-device
scalar component sequences with `pack_per_replica` and unpacking the
result with `unpack_per_replica_and_map` under the identity map function
yields back the original per-device sequence, for any device count of at
least 1 (and at least one component per device). -/
theorem claim_C2_pack_unpack_roundtrip {α : Type} (u : List (List α)) (n : Nat)
    (hne : u ≠ []) (hpos : 0 < n) (hrect : ∀ r ∈ u, r.length = n) :
    unpack_per_replica_and_map id (some (pack_per_replica u)) (some ()) Option.none =
      Except.ok u := by
  simp only [unpack_per_replica_and_map, experimental_local_results, pack_per_replica,
    List.map_map, List.map_id]
  have hcomp : (PerReplica.values ∘ PerReplica.mk : List α → List α) = id := rfl
  rw [hcomp, List.map_id]
  rw [pyZipStar_involution u n hne hpos hrect]

theorem claim_C2_pack_unpack_roundtrip_witness :
    (([[(1 : Int), 2], [3, 4]] : List (List Int)) ≠ [] ∧ 0 < 2 ∧
      ∀ r ∈ ([[(1 : Int), 2], [3, 4]] : List (List Int)), r.length = 2) ∧
    unpack_per_replica_and_map id (some (pack_per_replica [[(1 : Int), 2], [3, 4]]))
      (some ()) Option.none = Except.ok [[(1 : Int), 2], [3, 4]] :=
  ⟨⟨by simp, by omega, by decide⟩,
    claim_C2_pack_unpack_roundtrip [[(1 : Int), 2], [3, 4]] 2 (by simp) (by omega)
      (by decide)⟩

/-- Claim C5: `unpack_per_replica_and_map` requires exactly one of its two
input forms — supplying neither `per_replica_data` nor
`unpacked_replica_data`, or supplying both, raises a ValueError and
produces no result, whatever the map function and strategy. -/
theorem claim_C5_exactly_one_input_form {α β : Type} (map_func : List α → β)
    (strategy : Option Unit) (prd : List (PerReplica α)) (urd : List (List α)) :
    unpack_per_replica_and_map map_func Option.none strategy Option.none =
      Except.error "ValueError: Provide per_replica_data (None) or unpacked_replica_data (None)" ∧
    unpack_per_replica_and_map map_func (some prd) strategy (some urd) =
      Except.error "ValueError: Either per_replica_data or unpacked_replica_data not both." :=
  ⟨rfl, rfl⟩

/-- Claim C10: supplying the packed form without a distribution strategy
raises a ValueError before any mapping occurs, while the already-unpacked
form is mapped without any strategy at all. -/
theorem claim_C10_strategy_only_for_packed {α β : Type} (map_func : List α → β)
    (prd : List (PerReplica α)) (urd : List (List α)) :
    unpack_per_replica_and_map map_func (some prd) Option.none Option.none =
      Except.error "ValueError: Please provide a distribution_strategy in order to unpack the provided per_replica_data" ∧
    unpack_per_replica_and_map map_func Option.none Option.none (some urd) =
      Except.ok (urd.map map_func) :=
  ⟨rfl, rfl⟩

/-- Claim C6 counterexample: a recognized per-device composite nested in a
sequence anywhere but along first elements is NOT detected —
`contains_per_replica_data([scalar, DistributedValues])` is false even
though the composite alone is recognized. -/
theorem claim_C6_counterexample :
    contains_per_replica_data (TFData.distributed [1]) = true ∧
    contains_per_replica_data (TFData.list [TFData.scalar 0, TFData.distributed [1]]) =
      false := by
  constructor
  · simp [contains_per_replica_data]
  · simp [contains_per_replica_data]

/-- Claim C6 (amended): `contains_per_replica_data` is false on every
plain scalar, true on every `DistributedValues` composite, false on empty
sequences, and on a non-empty list or tuple it recurses into the first
element only — so a composite is detected exactly when it sits along the
chain of first elements, not when nested anywhere else in a sequence. -/
theorem claim_C6_amended_first_element_recursion :
    (∀ n : Int, contains_per_replica_data (TFData.scalar n) = false) ∧
    (∀ vs : List Int, contains_per_replica_data (TFData.distributed vs) = true) ∧
    contains_per_replica_data (TFData.list []) = false ∧
    contains_per_replica_data (TFData.tuple []) = false ∧
    (∀ (x : TFData) (xs : List TFData),
      contains_per_replica_data (TFData.list (x :: xs)) = contains_per_replica_data x) ∧
    (∀ (x : TFData) (xs : List TFData),
      contains_per_replica_data (TFData.tuple (x :: xs)) = contains_per_replica_data x) := by
  refine ⟨?_, ?_, ?_, ?_, ?_, ?_⟩ <;> intros <;> simp [contains_per_replica_data]

theorem getItem_ok {o : PyVal} {k : String} {v : PyVal}
    (h : getItem o k = Except.ok v) :
    ∃ es, o = PyVal.dict es ∧ lookupEntry k es = some v := by
  cases o with
  | dict es =>
    simp only [getItem] at h
    cases hl : lookupEntry k es with
    | none => rw [hl] at h; exact absurd h (by simp)
    | some w =>
      rw [hl] at h
      exact ⟨es, rfl, by rw [hl, Except.ok.inj h]⟩
  | none => exact absurd h (by simp [getItem])
  | int n => exact absurd h (by simp [getItem])
  | str s => exact absurd h (by simp [getItem])
  | list xs => exact absurd h (by simp [getItem])
  | tuple xs => exact absurd h (by simp [getItem])

/-- After the write-back chain of `BatchSizeLogger`, walking the four-key
path retrieves the stored batch size. -/
theorem getValueLoop_writeback {logs current tp b b1 tp1 current1 logs1 : PyVal}
    {base : String} {n : Int}
    (h0 : getItem logs base = Except.ok current)
    (h1 : getItem current "training_params" = Except.ok tp)
    (h2 : getItem tp "batch" = Except.ok b)
    (h3 : setItem b "batch_size" (PyVal.int n) = Except.ok b1)
    (h4 : setItem tp "batch" b1 = Except.ok tp1)
    (h5 : setItem current "training_params" tp1 = Except.ok current1)
    (h6 : setItem logs base current1 = Except.ok logs1) :
    getValueLoop [base, "training_params", "batch", "batch_size"] logs1 =
      Except.ok (PyVal.int n) := by
  obtain ⟨esb, rfl, rfl⟩ := setItem_ok h3
  obtain ⟨est, rfl, rfl⟩ := setItem_ok h4
  obtain ⟨esc, rfl, rfl⟩ := setItem_ok h5
  obtain ⟨esl, rfl, rfl⟩ := setItem_ok h6
  simp only [getValueLoop, has_key_setEntry, if_true, getItem_setEntry]

theorem claim_C8_batch_size_logger (batch_dimension : Nat) (training_batch : Batch)
    (logs logs1 : PyVal) (succ : Bool)
    (h : batchSizeLogger_on_batch_training_start batch_dimension "current"
          training_batch logs = Except.ok (logs1, succ)) :
    succ = true ∧
    ∃ n : Int,
      get_value_at "current.training_params.batch.batch_size" logs1 =
        Except.ok (PyVal.int n) ∧
      (∀ items, training_batch = Batch.chunkable items → n = Int.ofNat items.length) ∧
      (∀ t rest, training_batch = Batch.seq (t :: rest) →
        ∃ m, t.shape[batch_dimension]? = some m ∧ n = Int.ofNat m) := by
  simp only [batchSizeLogger_on_batch_training_start] at h
  split at h
  case h_1 => exact absurd h (by simp)
  case h_2 current h0 =>
    split at h
    case h_1 => exact absurd h (by simp)
    case h_2 n hn =>
      split at h
      case h_1 => exact absurd h (by simp)
      case h_2 tp h1 =>
        split at h
        case h_1 => exact absurd h (by simp)
        case h_2 b h2 =>
          split at h
          case h_1 => exact absurd h (by simp)
          case h_2 b1 h3 =>
            split at h
            case h_1 => exact absurd h (by simp)
            case h_2 tp1 h4 =>
              split at h
              case h_1 => exact absurd h (by simp)
              case h_2 current1 h5 =>
                split at h
                case h_1 => exact absurd h (by simp)
                case h_2 logs2 h6 =>
                  injection h with h'
                  injection h' with ha hb
                  subst ha
                  subst hb
                  refine ⟨rfl, n, ?_, ?_, ?_⟩
                  · have hloop := getValueLoop_writeback h0 h1 h2 h3 h4 h5 h6
                    simp only [get_value_at]
                    have hsplit : splitKeys "current.training_params.batch.batch_size" =
                        ["current", "training_params", "batch", "batch_size"] := rfl
                    rw [hsplit, hloop]
                  · intro items hitems
                    subst hitems
                    simp only [is_chunkable, if_true, batchLen] at hn
                    exact (Except.ok.inj hn).symm
                  · intro t rest hseq
                    subst hseq
                    simp only [is_chunkable, Bool.false_eq_true, if_false, batchFirst,
                      tensorSize] at hn
                    cases hm : t.shape[batch_dimension]? with
                    | none => rw [hm] at hn; exact absurd hn (by simp)
                    | some m =>
                      rw [hm] at hn
                      exact ⟨m, rfl, (Except.ok.inj hn).symm⟩

theorem claim_C8_batch_size_logger_witness :
    batchSizeLogger_on_batch_training_start 1 "current"
      (Batch.chunkable [Tensor.mk [3], Tensor.mk [3]])
      (PyVal.dict [("current", PyVal.dict [("training_params",
        PyVal.dict [("batch", PyVal.dict [])])])]) =
      Except.ok (PyVal.dict [("current", PyVal.dict [("training_params",
        PyVal.dict [("batch", PyVal.dict [("batch_size", PyVal.int 2)])])])], true) ∧
    get_value_at "current.training_params.batch.batch_size"
      (PyVal.dict [("current", PyVal.dict [("training_params",
        PyVal.dict [("batch", PyVal.dict [("batch_size", PyVal.int 2)])])])]) =
      Except.ok (PyVal.int 2) := by
  refine ⟨rfl, ?_⟩
  obtain ⟨-, n, hget, hchunk, -⟩ :=
    claim_C8_batch_size_logger 1 (Batch.chunkable [Tensor.mk [3], Tensor.mk [3]])
      (PyVal.dict [("current", PyVal.dict [("training_params",
        PyVal.dict [("batch", PyVal.dict [])])])])
      (PyVal.dict [("current", PyVal.dict [("training_params",
        PyVal.dict [("batch", PyVal.dict [("batch_size", PyVal.int 2)])])])]) true rfl
  have hn := hchunk _ rfl
  rw [hn] at hget
  exact hget

/-- Claim C7: LogProgress is a read-only consumer of the log tree — for
every logs mapping on which its hooks succeed, `on_batch_training_completed`
and `on_epoch_completed` return the logs structure unchanged (every key
and value at every path), producing only progress text and a success
flag; when a hook raises, both sides are that same error. -/
theorem claim_C7_log_progress_read_only (cfg : LogProgressCfg) (logs : PyVal) :
    (logProgress_on_batch_training_completed cfg logs).map (fun r => r.1) =
      (logProgress_on_batch_training_completed cfg logs).map (fun _ => logs) ∧
    (logProgress_on_epoch_completed cfg logs).map (fun r => r.1) =
      (logProgress_on_epoch_completed cfg logs).map (fun _ => logs) := by
  constructor
  · unfold logProgress_on_batch_training_completed
    repeat' split
    all_goals rfl
  · unfold logProgress_on_epoch_completed
    repeat' split
    all_goals rfl

end Mlpug
